import Mathlib

/-!
Shallow embedding of the pomodoro timer core: the `PomodoroTimer` class and
its type definitions. Wall-clock timestamps are integers (milliseconds); the
host's `Date.now()` is passed explicitly as a `now` argument to every
operation that reads the clock. The `setInterval` handle is modelled as an
`Option Nat` (`none` = no active interval). Callback invocations
(`onTick`, `onSessionEnd`, `onComplete`, `onStateChange`) are returned as an
explicit event list, in invocation order.
-/

inductive SessionType where
  | work
  | break_
  | longBreak
  deriving DecidableEq, Repr

inductive ThemeMode where
  | light
  | dark
  | system
  deriving DecidableEq, Repr

inductive TimerStatus where
  | idle
  | running
  | paused
  | completed
  deriving DecidableEq, Repr

structure PomodoroSettings where
  workDuration : Nat
  breakDuration : Nat
  longBreakDuration : Nat
  totalSets : Nat
  longBreakInterval : Nat
  soundEnabled : Bool
  notificationEnabled : Bool
  themeMode : ThemeMode
  deriving DecidableEq, Repr

structure TimerState where
  status : TimerStatus
  currentSession : SessionType
  currentSet : Nat
  remainingTime : Int
  totalDuration : Int
  deriving DecidableEq, Repr

def DEFAULT_SETTINGS : PomodoroSettings :=
  { workDuration := 25
    breakDuration := 5
    longBreakDuration := 15
    totalSets := 4
    longBreakInterval := 4
    soundEnabled := true
    notificationEnabled := true
    themeMode := ThemeMode.system }

/-- One callback invocation made by the engine, with its payload. -/
inductive CallbackEvent where
  | onTick (state : TimerState)
  | onSessionEnd (ended : SessionType) (next : Option SessionType)
  | onComplete
  | onStateChange (state : TimerState)
  deriving DecidableEq, Repr

def isSessionEnd : CallbackEvent → Bool
  | CallbackEvent.onSessionEnd _ _ => true
  | _ => false

def isCompleteEvent : CallbackEvent → Bool
  | CallbackEvent.onComplete => true
  | _ => false

def countSessionEnd (evs : List CallbackEvent) : Nat :=
  evs.countP isSessionEnd

def countComplete (evs : List CallbackEvent) : Nat :=
  evs.countP isCompleteEvent

/-- The `PomodoroTimer` object: settings, public state, and the private
timer-control fields (`intervalId`, `startTime`, `endTime`,
`pausedRemainingTime`). -/
structure PomodoroTimer where
  settings : PomodoroSettings
  state : TimerState
  intervalId : Option Nat
  startTime : Int
  endTime : Int
  pausedRemainingTime : Int
  deriving DecidableEq, Repr

namespace PomodoroTimer

def createInitialState (settings : PomodoroSettings) : TimerState :=
  let duration : Int := (settings.workDuration : Int) * 60 * 1000
  { status := TimerStatus.idle
    currentSession := SessionType.work
    currentSet := 1
    remainingTime := duration
    totalDuration := duration }

/-- The constructor (with a fully supplied settings object). -/
def new (settings : PomodoroSettings) : PomodoroTimer :=
  { settings := settings
    state := createInitialState settings
    intervalId := none
    startTime := 0
    endTime := 0
    pausedRemainingTime := 0 }

def getSessionDuration (settings : PomodoroSettings) : SessionType → Int
  | SessionType.work => (settings.workDuration : Int) * 60 * 1000
  | SessionType.break_ => (settings.breakDuration : Int) * 60 * 1000
  | SessionType.longBreak => (settings.longBreakDuration : Int) * 60 * 1000

def startTimer (t : PomodoroTimer) (duration : Int) (now : Int) : PomodoroTimer :=
  { t with startTime := now, endTime := now + duration, intervalId := some 0 }

def stopInterval (t : PomodoroTimer) : PomodoroTimer :=
  { t with intervalId := none }

def getNextSession (t : PomodoroTimer) : Option SessionType :=
  match t.state.currentSession with
  | SessionType.work =>
      if t.state.currentSet ≥ t.settings.totalSets then none
      else if t.state.currentSet % t.settings.longBreakInterval = 0 then
        some SessionType.longBreak
      else some SessionType.break_
  | _ =>
      if t.state.currentSet ≥ t.settings.totalSets then none
      else some SessionType.work

def handleSessionEnd (t : PomodoroTimer) (now : Int) : PomodoroTimer × List CallbackEvent :=
  let t1 := stopInterval t
  let endedSession := t1.state.currentSession
  match getNextSession t1 with
  | none =>
      let t2 := { t1 with state.status := TimerStatus.completed, state.remainingTime := 0 }
      (t2, [CallbackEvent.onSessionEnd endedSession none, CallbackEvent.onComplete,
            CallbackEvent.onStateChange t2.state])
  | some next =>
      let s1 := { t1.state with currentSession := next }
      let s2 :=
        if (endedSession = SessionType.break_ ∨ endedSession = SessionType.longBreak) ∧
            next = SessionType.work then
          { s1 with currentSet := s1.currentSet + 1 }
        else s1
      let duration := getSessionDuration t1.settings next
      let s3 := { s2 with totalDuration := duration, remainingTime := duration,
                          status := TimerStatus.running }
      let t2 := startTimer { t1 with state := s3 } duration now
      (t2, [CallbackEvent.onSessionEnd endedSession (some next),
            CallbackEvent.onStateChange t2.state])

def tick (t : PomodoroTimer) (now : Int) : PomodoroTimer × List CallbackEvent :=
  let remaining := max 0 (t.endTime - now)
  let t1 := { t with state.remainingTime := remaining }
  if remaining = 0 then handleSessionEnd t1 now
  else (t1, [CallbackEvent.onTick t1.state])

def resume (t : PomodoroTimer) (now : Int) : PomodoroTimer × List CallbackEvent :=
  if t.state.status ≠ TimerStatus.paused then (t, [])
  else
    let t1 := { t with state.status := TimerStatus.running }
    let t2 := startTimer t1 t1.pausedRemainingTime now
    (t2, [CallbackEvent.onStateChange t2.state])

def start (t : PomodoroTimer) (now : Int) : PomodoroTimer × List CallbackEvent :=
  if t.state.status = TimerStatus.running then (t, [])
  else if t.state.status = TimerStatus.paused then resume t now
  else
    let duration := getSessionDuration t.settings t.state.currentSession
    let s1 := { t.state with status := TimerStatus.running, totalDuration := duration,
                             remainingTime := duration }
    let t1 := startTimer { t with state := s1 } duration now
    (t1, [CallbackEvent.onStateChange t1.state])

def pause (t : PomodoroTimer) : PomodoroTimer × List CallbackEvent :=
  if t.state.status ≠ TimerStatus.running then (t, [])
  else
    let t1 := stopInterval t
    let t2 := { t1 with pausedRemainingTime := t1.state.remainingTime,
                        state.status := TimerStatus.paused }
    (t2, [CallbackEvent.onStateChange t2.state])

def reset (t : PomodoroTimer) : PomodoroTimer × List CallbackEvent :=
  let t1 := stopInterval t
  let t2 := { t1 with state := createInitialState t1.settings }
  (t2, [CallbackEvent.onStateChange t2.state])

def skip (t : PomodoroTimer) (now : Int) : PomodoroTimer × List CallbackEvent :=
  if t.state.status = TimerStatus.idle ∨ t.state.status = TimerStatus.completed then (t, [])
  else handleSessionEnd t now

def getProgress (t : PomodoroTimer) : ℚ :=
  if t.state.totalDuration = 0 then 0
  else ((t.state.totalDuration : ℚ) - (t.state.remainingTime : ℚ)) /
        (t.state.totalDuration : ℚ) * 100

def padStart (s : String) (n : Nat) (c : Char) : String :=
  if s.length ≥ n then s else String.mk (List.replicate (n - s.length) c) ++ s

def formatTime (ms : Nat) : String :=
  let totalSeconds := (ms + 999) / 1000
  let minutes := totalSeconds / 60
  let seconds := totalSeconds % 60
  padStart (toString minutes) 2 '0' ++ ":" ++ padStart (toString seconds) 2 '0'

def isPaused (t : PomodoroTimer) : Bool :=
  t.state.status = TimerStatus.paused

def isRunning (t : PomodoroTimer) : Bool :=
  t.state.status = TimerStatus.running

def isCompleted (t : PomodoroTimer) : Bool :=
  t.state.status = TimerStatus.completed

def isIdle (t : PomodoroTimer) : Bool :=
  t.state.status = TimerStatus.idle

/-- A natural session expiry: a poll that arrives exactly at the end
timestamp, so `remainingTime` computes to `0`. -/
def expire (t : PomodoroTimer) : PomodoroTimer × List CallbackEvent :=
  tick t t.endTime

/-- Iterate natural expiries (fuelled), stopping once the engine is
completed, accumulating all callback events. -/
def runExpire : Nat → PomodoroTimer → PomodoroTimer × List CallbackEvent
  | 0, t => (t, [])
  | Nat.succ fuel, t =>
      if t.state.status = TimerStatus.completed then (t, [])
      else
        let r := expire t
        let r2 := runExpire fuel r.1
        (r2.1, r.2 ++ r2.2)

end PomodoroTimer

open PomodoroTimer

/-- States of an engine driven by a single host: operations may happen at
any wall-clock times that never run backwards, and a poll (`tick`) can
only fire while an interval is registered. The configuration is fixed for
the run (`updateSettings` merges are a separate construction wholesale).
The clock value `c` is the time of the latest operation. -/
inductive Reachable (cfg : PomodoroSettings) : PomodoroTimer → Int → Prop where
  | init (c : Int) : Reachable cfg (PomodoroTimer.new cfg) c
  | start {t : PomodoroTimer} {c c' : Int} :
      Reachable cfg t c → c ≤ c' → Reachable cfg (PomodoroTimer.start t c').1 c'
  | pause {t : PomodoroTimer} {c : Int} :
      Reachable cfg t c → Reachable cfg (PomodoroTimer.pause t).1 c
  | reset {t : PomodoroTimer} {c : Int} :
      Reachable cfg t c → Reachable cfg (PomodoroTimer.reset t).1 c
  | skip {t : PomodoroTimer} {c c' : Int} :
      Reachable cfg t c → c ≤ c' → Reachable cfg (PomodoroTimer.skip t c').1 c'
  | tick {t : PomodoroTimer} {c c' : Int} :
      Reachable cfg t c → c ≤ c' → t.intervalId ≠ none →
      Reachable cfg (PomodoroTimer.tick t c').1 c'

/-- The inductive invariant of reachable engine states, relative to the
current clock `c`. -/
structure TimerInv (cfg : PomodoroSettings) (t : PomodoroTimer) (c : Int) : Prop where
  settings_eq : t.settings = cfg
  remaining_nonneg : 0 ≤ t.state.remainingTime
  remaining_le : t.state.remainingTime ≤ t.state.totalDuration
  paused_frozen : t.state.status = TimerStatus.paused →
    t.pausedRemainingTime = t.state.remainingTime
  endTime_le : t.intervalId ≠ none → t.endTime ≤ c + t.state.totalDuration
  running_iff : t.state.status = TimerStatus.running ↔ t.intervalId ≠ none
  set_pos : 1 ≤ t.state.currentSet
  set_le : 1 ≤ cfg.totalSets → t.state.currentSet ≤ cfg.totalSets

/-! ### Helper lemmas -/

lemma getNextSession_stopInterval (t : PomodoroTimer) :
    getNextSession (stopInterval t) = getNextSession t := rfl

lemma getNextSession_setRemaining (t : PomodoroTimer) (x : Int) :
    getNextSession { t with state.remainingTime := x } = getNextSession t := rfl

lemma handleSessionEnd_counts (t : PomodoroTimer) (now : Int) :
    countSessionEnd (handleSessionEnd t now).2 = 1 ∧
    countComplete (handleSessionEnd t now).2 =
      (if getNextSession t = none then 1 else 0) := by
  cases hg : getNextSession t <;>
    simp [handleSessionEnd, getNextSession_stopInterval, hg, countSessionEnd,
      countComplete, List.countP_cons, List.countP_nil, isSessionEnd, isCompleteEvent]

/-- Claim C1: the session-transition function matches the spec's state
machine: from `work`, terminal when `currentSet ≥ totalSets`, else
`longBreak` when `currentSet % longBreakInterval = 0`, else `break`; from a
break-type session, terminal when `currentSet ≥ totalSets`, else `work`;
and `currentSet` is incremented by 1 exactly on a break-type-to-work
transition, never on a work-to-break transition. -/
theorem nextSession_transition_spec (t : PomodoroTimer) :
    (getNextSession t =
      match t.state.currentSession with
      | SessionType.work =>
          if t.state.currentSet ≥ t.settings.totalSets then none
          else if t.state.currentSet % t.settings.longBreakInterval = 0 then
            some SessionType.longBreak
          else some SessionType.break_
      | _ =>
          if t.state.currentSet ≥ t.settings.totalSets then none
          else some SessionType.work) ∧
    (∀ now : Int, (handleSessionEnd t now).1.state.currentSet =
      if t.state.currentSession ≠ SessionType.work ∧
          t.state.currentSet < t.settings.totalSets then
        t.state.currentSet + 1
      else t.state.currentSet) := by
  refine ⟨rfl, ?_⟩
  intro now
  by_cases htot : t.state.currentSet ≥ t.settings.totalSets
  · cases hc : t.state.currentSession <;>
      simp [handleSessionEnd, getNextSession, stopInterval, hc, htot, Nat.not_lt.mpr htot]
  · cases hc : t.state.currentSession <;>
      simp [handleSessionEnd, getNextSession, startTimer, stopInterval, hc, htot,
        Nat.lt_of_not_le htot] <;>
      (split <;> simp)

/-- Claim C6: `reset()` from any status yields the state of a freshly
constructed engine with the same configuration: status `idle`, session
`work`, set 1, and `remainingTime = totalDuration =` the configured work
duration in milliseconds. -/
theorem reset_restores_initial_state (t : PomodoroTimer) :
    (reset t).1.state = (PomodoroTimer.new t.settings).state ∧
    (reset t).1.state.status = TimerStatus.idle ∧
    (reset t).1.state.currentSession = SessionType.work ∧
    (reset t).1.state.currentSet = 1 ∧
    (reset t).1.state.remainingTime = (t.settings.workDuration : Int) * 60 * 1000 ∧
    (reset t).1.state.totalDuration = (t.settings.workDuration : Int) * 60 * 1000 :=
  ⟨rfl, rfl, rfl, rfl, rfl, rfl⟩

/-- Claim C7: `formatTime` is a pure function of its millisecond argument
that rounds up to whole seconds and renders `MM:SS` zero-padded with no
hour rollover: `formatTime 0 = "00:00"`, `formatTime 1 = "00:01"`,
`formatTime 60000 = "01:00"`, `formatTime 3600000 = "60:00"`; and the
rendering only depends on the ceiling of the argument to whole seconds. -/
theorem formatTime_examples_and_ceiling :
    formatTime 0 = "00:00" ∧
    formatTime 1 = "00:01" ∧
    formatTime 60000 = "01:00" ∧
    formatTime 3600000 = "60:00" ∧
    ∀ ms : Nat, formatTime ms = formatTime (1000 * ((ms + 999) / 1000)) := by
  refine ⟨rfl, rfl, rfl, rfl, ?_⟩
  intro ms
  unfold formatTime
  have h : (1000 * ((ms + 999) / 1000) + 999) / 1000 = (ms + 999) / 1000 := by omega
  rw [h]

/-- Claim C8: operations invoked in an invalid state are silent no-ops
that leave the whole timer unchanged and emit no callbacks: `pause()` when
not running, `start()` when running, and `skip()` when idle or completed. -/
theorem invalid_state_ops_are_noops (t : PomodoroTimer) (now : Int) :
    (t.state.status ≠ TimerStatus.running → pause t = (t, [])) ∧
    (t.state.status = TimerStatus.running → start t now = (t, [])) ∧
    (t.state.status = TimerStatus.idle ∨ t.state.status = TimerStatus.completed →
      skip t now = (t, [])) := by
  refine ⟨fun h => ?_, fun h => ?_, fun h => ?_⟩
  · simp [pause, h]
  · simp [start, h]
  · rcases h with h | h <;> simp [skip, h]

/-- Witness for C8 at concrete states: a fresh (idle) engine and a started
(running) engine. -/
theorem invalid_state_ops_are_noops_witness :
    pause (PomodoroTimer.new DEFAULT_SETTINGS) = (PomodoroTimer.new DEFAULT_SETTINGS, []) ∧
    start (start (PomodoroTimer.new DEFAULT_SETTINGS) 0).1 5 =
      ((start (PomodoroTimer.new DEFAULT_SETTINGS) 0).1, []) ∧
    skip (PomodoroTimer.new DEFAULT_SETTINGS) 0 = (PomodoroTimer.new DEFAULT_SETTINGS, []) :=
  ⟨(invalid_state_ops_are_noops (PomodoroTimer.new DEFAULT_SETTINGS) 0).1 (by decide),
   (invalid_state_ops_are_noops (start (PomodoroTimer.new DEFAULT_SETTINGS) 0).1 5).2.1
     (by decide),
   (invalid_state_ops_are_noops (PomodoroTimer.new DEFAULT_SETTINGS) 0).2.2
     (Or.inl (by decide))⟩


lemma tick_setRemaining (t : PomodoroTimer) (x now : Int) :
    tick { t with state.remainingTime := x } now = tick t now := rfl

lemma handleSessionEnd_setRemaining (t : PomodoroTimer) (x now : Int) :
    handleSessionEnd { t with state.remainingTime := x } now = handleSessionEnd t now := by
  cases hg : getNextSession t with
  | none =>
      simp only [handleSessionEnd, getNextSession_stopInterval, getNextSession_setRemaining, hg]
      simp [stopInterval]
  | some next =>
      simp only [handleSessionEnd, getNextSession_stopInterval, getNextSession_setRemaining, hg]
      by_cases hcond : (t.state.currentSession = SessionType.break_ ∨
          t.state.currentSession = SessionType.longBreak) ∧ next = SessionType.work <;>
        simp [stopInterval, startTimer, hcond]

lemma handleSessionEnd_now_independent (t : PomodoroTimer) (now now' : Int) :
    (handleSessionEnd t now).1.state = (handleSessionEnd t now').1.state ∧
    (handleSessionEnd t now).2 = (handleSessionEnd t now').2 := by
  cases hg : getNextSession t with
  | none =>
      simp only [handleSessionEnd, getNextSession_stopInterval, hg]
      simp [stopInterval]
  | some next =>
      simp only [handleSessionEnd, getNextSession_stopInterval, hg]
      by_cases hcond : (t.state.currentSession = SessionType.break_ ∨
          t.state.currentSession = SessionType.longBreak) ∧ next = SessionType.work <;>
        simp [stopInterval, startTimer, hcond]

lemma tick_counts_of_expired (t : PomodoroTimer) (c : Int) (h : t.endTime - c ≤ 0) :
    countSessionEnd (tick t c).2 = 1 := by
  have hmax : max 0 (t.endTime - c) = 0 := by omega
  have hmain : tick t c = handleSessionEnd { t with state.remainingTime := 0 } c := by
    simp [tick, hmax]
  rw [hmain, handleSessionEnd_setRemaining]
  exact (handleSessionEnd_counts _ _).1

/-- Claim C2: while running, a poll recomputes `remainingTime` as
`max 0 (endTime - now)` from the wall clock; a poll that does not reach 0
leaves the end timestamp and the interval handle untouched, and inserting
an intermediate delayed poll changes nothing about the next poll's outcome
(so any number K of skipped or delayed polls still observes the true
remaining wall-clock time); a poll that reaches 0 fires the session-end
transition exactly once, and when the transition is terminal the poll loop
is stopped. -/
theorem tick_wallclock_drift (t : PomodoroTimer) (now : Int) :
    (0 < t.endTime - now →
      (tick t now).1.state.remainingTime = t.endTime - now ∧
      (tick t now).1.endTime = t.endTime ∧
      (tick t now).1.intervalId = t.intervalId ∧
      (tick t now).2 = [CallbackEvent.onTick (tick t now).1.state] ∧
      ∀ c : Int, 0 < t.endTime - c → tick (tick t c).1 now = tick t now) ∧
    (t.endTime - now ≤ 0 →
      countSessionEnd (tick t now).2 = 1 ∧
      countComplete (tick t now).2 = (if getNextSession t = none then 1 else 0) ∧
      (getNextSession t = none →
        (tick t now).1.intervalId = none ∧
        (tick t now).1.state.remainingTime = 0 ∧
        (tick t now).1.state.status = TimerStatus.completed)) := by
  constructor
  · intro h
    have hmax : max 0 (t.endTime - now) = t.endTime - now := max_eq_right h.le
    have hne : t.endTime - now ≠ 0 := by omega
    have hmain : tick t now =
        ({ t with state.remainingTime := t.endTime - now },
          [CallbackEvent.onTick { t.state with remainingTime := t.endTime - now }]) := by
      simp [tick, hmax, hne]
    refine ⟨by simp [hmain], by simp [hmain], by simp [hmain], by simp [hmain], ?_⟩
    intro c hc
    have hmaxc : max 0 (t.endTime - c) = t.endTime - c := max_eq_right hc.le
    have hnec : t.endTime - c ≠ 0 := by omega
    have h1 : (tick t c).1 = { t with state.remainingTime := t.endTime - c } := by
      simp [tick, hmaxc, hnec]
    rw [h1, tick_setRemaining]
  · intro h
    have hmax : max 0 (t.endTime - now) = 0 := by omega
    have hmain : tick t now = handleSessionEnd { t with state.remainingTime := 0 } now := by
      simp [tick, hmax]
    rw [hmain, handleSessionEnd_setRemaining]
    refine ⟨(handleSessionEnd_counts t now).1, (handleSessionEnd_counts t now).2, ?_⟩
    intro hg
    simp only [handleSessionEnd, getNextSession_stopInterval, hg]
    simp [stopInterval]

/-- Witness for C2: a freshly started default engine polled mid-countdown
at time 1000 and at its end timestamp 1500000. -/
theorem tick_wallclock_drift_witness :
    (0 : Int) < (start (PomodoroTimer.new DEFAULT_SETTINGS) 0).1.endTime - 1000 ∧
    (tick (start (PomodoroTimer.new DEFAULT_SETTINGS) 0).1 1000).1.state.remainingTime
      = (start (PomodoroTimer.new DEFAULT_SETTINGS) 0).1.endTime - 1000 ∧
    (start (PomodoroTimer.new DEFAULT_SETTINGS) 0).1.endTime - 1500000 ≤ 0 ∧
    countSessionEnd (tick (start (PomodoroTimer.new DEFAULT_SETTINGS) 0).1 1500000).2 = 1 :=
  ⟨by decide,
   ((tick_wallclock_drift (start (PomodoroTimer.new DEFAULT_SETTINGS) 0).1 1000).1
      (by decide)).1,
   by decide,
   ((tick_wallclock_drift (start (PomodoroTimer.new DEFAULT_SETTINGS) 0).1 1500000).2
      (by decide)).1⟩

/-- Claim C3: pausing a running engine at `remainingTime = T` freezes `T`
as the resume baseline; a later `start()` resumes with a fresh end
timestamp `now + T` and unchanged `remainingTime = T`, so a poll at any
time `c` before `now + T` observes exactly `now + T - c` remaining and a
poll at or after `now + T` fires the session-end transition — the
countdown takes exactly `T` more wall-clock time, however long the engine
sat paused. -/
theorem pause_resume_exact (t : PomodoroTimer) (now : Int)
    (h : t.state.status = TimerStatus.running) :
    (pause t).1.state.status = TimerStatus.paused ∧
    (pause t).1.pausedRemainingTime = t.state.remainingTime ∧
    (start (pause t).1 now).1.endTime = now + t.state.remainingTime ∧
    (start (pause t).1 now).1.state.status = TimerStatus.running ∧
    (start (pause t).1 now).1.state.remainingTime = t.state.remainingTime ∧
    (∀ c : Int, c < now + t.state.remainingTime →
      (tick (start (pause t).1 now).1 c).1.state.remainingTime
        = now + t.state.remainingTime - c) ∧
    (∀ c : Int, now + t.state.remainingTime ≤ c →
      countSessionEnd (tick (start (pause t).1 now).1 c).2 = 1) := by
  have hp : (pause t).1 =
      { t with intervalId := none,
               pausedRemainingTime := t.state.remainingTime,
               state.status := TimerStatus.paused } := by
    simp [pause, h, stopInterval]
  have hr : (start (pause t).1 now).1 =
      { t with intervalId := some 0,
               pausedRemainingTime := t.state.remainingTime,
               state.status := TimerStatus.running,
               startTime := now,
               endTime := now + t.state.remainingTime } := by
    rw [hp]; simp [start, resume, startTimer]
  refine ⟨by simp [hp], by simp [hp], by simp [hr], by simp [hr], by simp [hr], ?_, ?_⟩
  · intro c hc
    have hmax : max 0 (now + t.state.remainingTime - c) = now + t.state.remainingTime - c := by
      omega
    have hne : now + t.state.remainingTime - c ≠ 0 := by omega
    rw [hr]; simp [tick, hmax, hne]
  · intro c hc
    rw [hr]
    exact tick_counts_of_expired _ c (by simp; omega)

/-- Witness for C3: the default engine started at time 0, paused
(remaining 1500000 ms), resumed at time 2000. -/
theorem pause_resume_exact_witness :
    (start (PomodoroTimer.new DEFAULT_SETTINGS) 0).1.state.status = TimerStatus.running ∧
    (start (pause (start (PomodoroTimer.new DEFAULT_SETTINGS) 0).1).1 2000).1.endTime
      = 2000 + (start (PomodoroTimer.new DEFAULT_SETTINGS) 0).1.state.remainingTime :=
  ⟨by decide,
   (pause_resume_exact (start (PomodoroTimer.new DEFAULT_SETTINGS) 0).1 2000
      (by decide)).2.2.1⟩

/-- Claim C5: skipping a running session at any time produces the same
resulting public `TimerState` and the same callback sequence as letting
the countdown reach zero naturally (a poll at or after the end
timestamp) from that same state. -/
theorem skip_equiv_natural_expiry (t : PomodoroTimer) (now now' : Int)
    (h : t.state.status = TimerStatus.running) (h2 : t.endTime ≤ now') :
    (skip t now).1.state = (tick t now').1.state ∧
    (skip t now).2 = (tick t now').2 := by
  have hs : skip t now = handleSessionEnd t now := by
    have h1 : t.state.status ≠ TimerStatus.idle := by rw [h]; intro hc; cases hc
    have h3 : t.state.status ≠ TimerStatus.completed := by rw [h]; intro hc; cases hc
    simp [skip, h1, h3]
  have hmax : max 0 (t.endTime - now') = 0 := by omega
  have ht : tick t now' = handleSessionEnd t now' := by
    have hstep : tick t now' = handleSessionEnd { t with state.remainingTime := 0 } now' := by
      simp [tick, hmax]
    rw [hstep, handleSessionEnd_setRemaining]
  rw [hs, ht]
  exact handleSessionEnd_now_independent t now now'

/-- Witness for C5: the default engine started at time 0, skipped at time
700 versus a natural expiry poll at time 1500000. -/
theorem skip_equiv_natural_expiry_witness :
    (start (PomodoroTimer.new DEFAULT_SETTINGS) 0).1.state.status = TimerStatus.running ∧
    (start (PomodoroTimer.new DEFAULT_SETTINGS) 0).1.endTime ≤ 1500000 ∧
    (skip (start (PomodoroTimer.new DEFAULT_SETTINGS) 0).1 700).1.state
      = (tick (start (PomodoroTimer.new DEFAULT_SETTINGS) 0).1 1500000).1.state :=
  ⟨by decide, by decide,
   (skip_equiv_natural_expiry (start (PomodoroTimer.new DEFAULT_SETTINGS) 0).1 700 1500000
      (by decide) (by decide)).1⟩

lemma getSessionDuration_nonneg (s : PomodoroSettings) (x : SessionType) :
    0 ≤ getSessionDuration s x := by
  cases x <;> simp [getSessionDuration]

lemma inv_mono {cfg : PomodoroSettings} {t : PomodoroTimer} {c c' : Int}
    (h : TimerInv cfg t c) (hc : c ≤ c') : TimerInv cfg t c' :=
  { h with endTime_le := fun hi => (h.endTime_le hi).trans (by omega) }

lemma inv_handleSessionEnd {cfg : PomodoroSettings} {t : PomodoroTimer} {c : Int}
    (h : TimerInv cfg t c) (now : Int) :
    TimerInv cfg (handleSessionEnd t now).1 now := by
  have htot : 0 ≤ t.state.totalDuration := h.remaining_nonneg.trans h.remaining_le
  cases hg : getNextSession t with
  | none =>
      have hg2 : getNextSession (stopInterval t) = none := by
        rw [getNextSession_stopInterval, hg]
      simp only [handleSessionEnd, hg2]
      exact
        { settings_eq := h.settings_eq
          remaining_nonneg := le_refl 0
          remaining_le := htot
          paused_frozen := by intro hp; cases hp
          endTime_le := by intro hi; simp [stopInterval] at hi
          running_iff := by constructor
                            · intro hr; cases hr
                            · intro hi; simp [stopInterval] at hi
          set_pos := h.set_pos
          set_le := h.set_le }
  | some next =>
      have hg2 : getNextSession (stopInterval t) = some next := by
        rw [getNextSession_stopInterval, hg]
      simp only [handleSessionEnd, hg2]
      simp only [stopInterval, startTimer]
      by_cases hcond : (t.state.currentSession = SessionType.break_ ∨
          t.state.currentSession = SessionType.longBreak) ∧ next = SessionType.work
      · have hlt : t.state.currentSet < t.settings.totalSets := by
          rcases hcond with ⟨hbt, hnw⟩
          by_contra habs
          have hge : t.state.currentSet ≥ t.settings.totalSets := Nat.le_of_not_lt habs
          rcases hbt with hb | hb <;> simp [getNextSession, hb, hge] at hg
        rw [if_pos hcond]
        exact
          { settings_eq := h.settings_eq
            remaining_nonneg := getSessionDuration_nonneg _ _
            remaining_le := le_refl _
            paused_frozen := by intro hp; cases hp
            endTime_le := by intro _; simp
            running_iff := by simp
            set_pos := Nat.le_succ_of_le h.set_pos
            set_le := by intro _; rw [h.settings_eq] at hlt; exact hlt }
      · rw [if_neg hcond]
        exact
          { settings_eq := h.settings_eq
            remaining_nonneg := getSessionDuration_nonneg _ _
            remaining_le := le_refl _
            paused_frozen := by intro hp; cases hp
            endTime_le := by intro _; simp
            running_iff := by simp
            set_pos := h.set_pos
            set_le := h.set_le }

lemma inv_init (cfg : PomodoroSettings) (c : Int) :
    TimerInv cfg (PomodoroTimer.new cfg) c :=
  { settings_eq := rfl
    remaining_nonneg := by simp [PomodoroTimer.new, createInitialState]
    remaining_le := le_refl _
    paused_frozen := by intro hp; cases hp
    endTime_le := by intro hi; simp [PomodoroTimer.new] at hi
    running_iff := by constructor
                      · intro hr; cases hr
                      · intro hi; simp [PomodoroTimer.new] at hi
    set_pos := le_refl 1
    set_le := fun hN => hN }

lemma inv_start {cfg : PomodoroSettings} {t : PomodoroTimer} {c c' : Int}
    (h : TimerInv cfg t c) (hc : c ≤ c') : TimerInv cfg (start t c').1 c' := by
  by_cases h1 : t.state.status = TimerStatus.running
  · simp only [start, if_pos h1]
    exact inv_mono h hc
  · by_cases h2 : t.state.status = TimerStatus.paused
    · have hfrozen := h.paused_frozen h2
      simp only [start, if_neg h1, if_pos h2, resume]
      rw [if_neg (by simp [h2])]
      simp only [startTimer]
      exact
        { settings_eq := h.settings_eq
          remaining_nonneg := h.remaining_nonneg
          remaining_le := h.remaining_le
          paused_frozen := by intro hp; cases hp
          endTime_le := by intro _
                           simp only
                           rw [hfrozen]
                           exact add_le_add_left h.remaining_le c'
          running_iff := by simp
          set_pos := h.set_pos
          set_le := h.set_le }
    · simp only [start, if_neg h1, if_neg h2, startTimer]
      exact
        { settings_eq := h.settings_eq
          remaining_nonneg := getSessionDuration_nonneg _ _
          remaining_le := le_refl _
          paused_frozen := by intro hp; cases hp
          endTime_le := by intro _; simp
          running_iff := by simp
          set_pos := h.set_pos
          set_le := h.set_le }

lemma inv_pause {cfg : PomodoroSettings} {t : PomodoroTimer} {c : Int}
    (h : TimerInv cfg t c) : TimerInv cfg (pause t).1 c := by
  by_cases h1 : t.state.status = TimerStatus.running
  · simp only [pause]
    rw [if_neg (by simp [h1])]
    simp only [stopInterval]
    exact
      { settings_eq := h.settings_eq
        remaining_nonneg := h.remaining_nonneg
        remaining_le := h.remaining_le
        paused_frozen := fun _ => rfl
        endTime_le := by intro hi; simp at hi
        running_iff := by simp
        set_pos := h.set_pos
        set_le := h.set_le }
  · simp only [pause, if_pos h1]
    exact h

lemma inv_reset {cfg : PomodoroSettings} {t : PomodoroTimer} {c : Int}
    (h : TimerInv cfg t c) : TimerInv cfg (reset t).1 c := by
  simp only [reset, stopInterval, createInitialState]
  exact
    { settings_eq := h.settings_eq
      remaining_nonneg := by simp
      remaining_le := le_refl _
      paused_frozen := by intro hp; cases hp
      endTime_le := by intro hi; simp at hi
      running_iff := by constructor
                        · intro hr; cases hr
                        · intro hi; simp at hi
      set_pos := le_refl 1
      set_le := fun hN => hN }

lemma inv_skip {cfg : PomodoroSettings} {t : PomodoroTimer} {c c' : Int}
    (h : TimerInv cfg t c) (hc : c ≤ c') : TimerInv cfg (skip t c').1 c' := by
  by_cases h1 : t.state.status = TimerStatus.idle ∨ t.state.status = TimerStatus.completed
  · simp only [skip, if_pos h1]
    exact inv_mono h hc
  · simp only [skip, if_neg h1]
    exact inv_handleSessionEnd h c'

lemma inv_tick {cfg : PomodoroSettings} {t : PomodoroTimer} {c c' : Int}
    (h : TimerInv cfg t c) (hc : c ≤ c') (hiid : t.intervalId ≠ none) :
    TimerInv cfg (tick t c').1 c' := by
  have htot : 0 ≤ t.state.totalDuration := h.remaining_nonneg.trans h.remaining_le
  have hend := h.endTime_le hiid
  have hrem_le : max 0 (t.endTime - c') ≤ t.state.totalDuration := by omega
  by_cases hz : max 0 (t.endTime - c') = 0
  · have hmain : tick t c' = handleSessionEnd { t with state.remainingTime := 0 } c' := by
      simp [tick, hz]
    rw [hmain, handleSessionEnd_setRemaining]
    exact inv_handleSessionEnd h c'
  · have hmain : (tick t c').1 = { t with state.remainingTime := max 0 (t.endTime - c') } := by
      simp [tick, hz]
    rw [hmain]
    exact
      { settings_eq := h.settings_eq
        remaining_nonneg := le_max_left 0 _
        remaining_le := hrem_le
        paused_frozen := by
          intro hp
          have hrun := h.running_iff.mpr hiid
          rw [hp] at hrun; cases hrun
        endTime_le := by intro _; simp only; omega
        running_iff := h.running_iff
        set_pos := h.set_pos
        set_le := h.set_le }

lemma reachable_inv {cfg : PomodoroSettings} {t : PomodoroTimer} {c : Int}
    (h : Reachable cfg t c) : TimerInv cfg t c := by
  induction h with
  | init c => exact inv_init cfg c
  | start _ hc ih => exact inv_start ih hc
  | pause _ ih => exact inv_pause ih
  | reset _ ih => exact inv_reset ih
  | skip _ hc ih => exact inv_skip ih hc
  | tick _ hc hiid ih => exact inv_tick ih hc hiid

/-- Claim C9: for every reachable state, `getProgress` is the percentage
`(totalDuration - remainingTime) / totalDuration * 100`, lies in
`[0, 100]`, and is `0` when `totalDuration = 0`, so the division is never
taken with a zero denominator. -/
theorem getProgress_in_range (cfg : PomodoroSettings) (t : PomodoroTimer) (c : Int)
    (h : Reachable cfg t c) :
    0 ≤ getProgress t ∧ getProgress t ≤ 100 ∧
    (t.state.totalDuration = 0 → getProgress t = 0) ∧
    (t.state.totalDuration ≠ 0 → getProgress t =
      ((t.state.totalDuration : ℚ) - (t.state.remainingTime : ℚ)) /
        (t.state.totalDuration : ℚ) * 100) := by
  have inv := reachable_inv h
  by_cases hz : t.state.totalDuration = 0
  · simp [getProgress, hz]
  · have hpos : 0 < t.state.totalDuration := by
      have := inv.remaining_nonneg.trans inv.remaining_le
      omega
    have hq : (0 : ℚ) < (t.state.totalDuration : ℚ) := by exact_mod_cast hpos
    have hb0 : (0 : ℚ) ≤ (t.state.remainingTime : ℚ) := by exact_mod_cast inv.remaining_nonneg
    have hba : (t.state.remainingTime : ℚ) ≤ (t.state.totalDuration : ℚ) := by
      exact_mod_cast inv.remaining_le
    have hdef : getProgress t =
        ((t.state.totalDuration : ℚ) - (t.state.remainingTime : ℚ)) /
          (t.state.totalDuration : ℚ) * 100 := by
      simp [getProgress, hz]
    refine ⟨?_, ?_, fun hc0 => absurd hc0 hz, fun _ => hdef⟩
    · rw [hdef]
      exact mul_nonneg (div_nonneg (sub_nonneg.mpr hba) hq.le) (by norm_num)
    · rw [hdef]
      have h1 : ((t.state.totalDuration : ℚ) - (t.state.remainingTime : ℚ)) /
          (t.state.totalDuration : ℚ) ≤ 1 := by
        rw [div_le_one hq]
        linarith
      calc ((t.state.totalDuration : ℚ) - (t.state.remainingTime : ℚ)) /
            (t.state.totalDuration : ℚ) * 100 ≤ 1 * 100 :=
              mul_le_mul_of_nonneg_right h1 (by norm_num)
        _ = 100 := one_mul 100

/-- Witness for C9: a reachable mid-run state (default engine started at
time 0, polled at time 500). -/
theorem getProgress_in_range_witness :
    Reachable DEFAULT_SETTINGS (tick (start (PomodoroTimer.new DEFAULT_SETTINGS) 0).1 500).1 500 ∧
    0 ≤ getProgress (tick (start (PomodoroTimer.new DEFAULT_SETTINGS) 0).1 500).1 ∧
    getProgress (tick (start (PomodoroTimer.new DEFAULT_SETTINGS) 0).1 500).1 ≤ 100 :=
  have hre : Reachable DEFAULT_SETTINGS
      (tick (start (PomodoroTimer.new DEFAULT_SETTINGS) 0).1 500).1 500 :=
    Reachable.tick (Reachable.start (Reachable.init 0) le_rfl) (by norm_num) (by decide)
  ⟨hre, (getProgress_in_range DEFAULT_SETTINGS _ 500 hre).1,
    (getProgress_in_range DEFAULT_SETTINGS _ 500 hre).2.1⟩

/-- Claim C10: with a configuration satisfying `totalSets ≥ 1`, every
reachable state keeps `1 ≤ currentSet ≤ totalSets`. -/
theorem currentSet_within_bounds (cfg : PomodoroSettings) (t : PomodoroTimer) (c : Int)
    (hN : 1 ≤ cfg.totalSets) (h : Reachable cfg t c) :
    1 ≤ t.state.currentSet ∧ t.state.currentSet ≤ cfg.totalSets :=
  ⟨(reachable_inv h).set_pos, (reachable_inv h).set_le hN⟩

/-- Witness for C10: the default engine started at time 0 and skipped at
time 600 (entering the first break). -/
theorem currentSet_within_bounds_witness :
    1 ≤ DEFAULT_SETTINGS.totalSets ∧
    1 ≤ (skip (start (PomodoroTimer.new DEFAULT_SETTINGS) 0).1 600).1.state.currentSet ∧
    (skip (start (PomodoroTimer.new DEFAULT_SETTINGS) 0).1 600).1.state.currentSet
      ≤ DEFAULT_SETTINGS.totalSets :=
  have hre : Reachable DEFAULT_SETTINGS
      (skip (start (PomodoroTimer.new DEFAULT_SETTINGS) 0).1 600).1 600 :=
    Reachable.skip (Reachable.start (Reachable.init 0) le_rfl) (by norm_num)
  ⟨by decide, (currentSet_within_bounds DEFAULT_SETTINGS _ 600 (by decide) hre).1,
    (currentSet_within_bounds DEFAULT_SETTINGS _ 600 (by decide) hre).2⟩

lemma countSessionEnd_append (a b : List CallbackEvent) :
    countSessionEnd (a ++ b) = countSessionEnd a + countSessionEnd b :=
  List.countP_append _ _ _

lemma countComplete_append (a b : List CallbackEvent) :
    countComplete (a ++ b) = countComplete a + countComplete b :=
  List.countP_append _ _ _

lemma runExpire_zero (t : PomodoroTimer) : runExpire 0 t = (t, []) := rfl

lemma runExpire_succ (fuel : Nat) (t : PomodoroTimer)
    (h : t.state.status ≠ TimerStatus.completed) :
    runExpire (fuel + 1) t =
      ((runExpire fuel (expire t).1).1, (expire t).2 ++ (runExpire fuel (expire t).1).2) := by
  simp [runExpire, h]

lemma runExpire_completed (fuel : Nat) (t : PomodoroTimer)
    (h : t.state.status = TimerStatus.completed) :
    runExpire fuel t = (t, []) := by
  cases fuel <;> simp [runExpire, h]

lemma runExpire_add (a b : Nat) (t : PomodoroTimer) :
    runExpire (a + b) t =
      ((runExpire b (runExpire a t).1).1,
        (runExpire a t).2 ++ (runExpire b (runExpire a t).1).2) := by
  induction a generalizing t with
  | zero => simp [runExpire_zero]
  | succ a ih =>
      by_cases h : t.state.status = TimerStatus.completed
      · rw [runExpire_completed (a + 1 + b) t h, runExpire_completed (a + 1) t h,
          runExpire_completed b t h]
        simp
      · have h1 : a + 1 + b = (a + b) + 1 := by omega
        rw [h1, runExpire_succ (a + b) t h, runExpire_succ a t h, ih]
        simp [List.append_assoc]

lemma expire_eq_handleSessionEnd (t : PomodoroTimer) :
    expire t = handleSessionEnd t t.endTime := by
  have hstep : expire t = handleSessionEnd { t with state.remainingTime := 0 } t.endTime := by
    simp [expire, tick]
  rw [hstep, handleSessionEnd_setRemaining]

lemma getNextSession_ge (t : PomodoroTimer)
    (hge : t.settings.totalSets ≤ t.state.currentSet) :
    getNextSession t = none := by
  cases hsess : t.state.currentSession <;> simp [getNextSession, hsess, hge]

lemma getNextSession_work_lt (t : PomodoroTimer)
    (hw : t.state.currentSession = SessionType.work)
    (hlt : t.state.currentSet < t.settings.totalSets) :
    getNextSession t = some SessionType.longBreak ∨
    getNextSession t = some SessionType.break_ := by
  by_cases hm : t.state.currentSet % t.settings.longBreakInterval = 0
  · left; simp [getNextSession, hw, Nat.not_le.mpr hlt, hm]
  · right; simp [getNextSession, hw, Nat.not_le.mpr hlt, hm]

lemma getNextSession_break_lt (t : PomodoroTimer)
    (hb : t.state.currentSession ≠ SessionType.work)
    (hlt : t.state.currentSet < t.settings.totalSets) :
    getNextSession t = some SessionType.work := by
  cases hsess : t.state.currentSession
  · exact absurd hsess hb
  · simp [getNextSession, hsess, Nat.not_le.mpr hlt]
  · simp [getNextSession, hsess, Nat.not_le.mpr hlt]

lemma expire_terminal (t : PomodoroTimer) (hg : getNextSession t = none) :
    (expire t).1.state.status = TimerStatus.completed ∧
    countSessionEnd (expire t).2 = 1 ∧
    countComplete (expire t).2 = 1 := by
  rw [expire_eq_handleSessionEnd]
  have hg2 : getNextSession (stopInterval t) = none := by
    rw [getNextSession_stopInterval, hg]
  refine ⟨?_, ?_, ?_⟩ <;>
    simp [handleSessionEnd, hg2, countSessionEnd, countComplete, List.countP_cons,
      List.countP_nil, isSessionEnd, isCompleteEvent]

lemma expire_work_step (t : PomodoroTimer) (next : SessionType)
    (hw : t.state.currentSession = SessionType.work)
    (hg : getNextSession t = some next) :
    (expire t).1.settings = t.settings ∧
    (expire t).1.state.status = TimerStatus.running ∧
    (expire t).1.state.currentSession = next ∧
    (expire t).1.state.currentSet = t.state.currentSet ∧
    countSessionEnd (expire t).2 = 1 ∧
    countComplete (expire t).2 = 0 := by
  rw [expire_eq_handleSessionEnd]
  have hg2 : getNextSession (stopInterval t) = some next := by
    rw [getNextSession_stopInterval, hg]
  have hcond : ¬ ((t.state.currentSession = SessionType.break_ ∨
      t.state.currentSession = SessionType.longBreak) ∧ next = SessionType.work) := by
    rw [hw]; rintro ⟨hb | hb, -⟩ <;> cases hb
  simp only [handleSessionEnd, hg2]
  simp only [stopInterval, startTimer]
  rw [if_neg hcond]
  simp [countSessionEnd, countComplete, List.countP_cons, List.countP_nil,
    isSessionEnd, isCompleteEvent]

lemma expire_break_step (t : PomodoroTimer)
    (hb : t.state.currentSession ≠ SessionType.work)
    (hlt : t.state.currentSet < t.settings.totalSets) :
    (expire t).1.settings = t.settings ∧
    (expire t).1.state.status = TimerStatus.running ∧
    (expire t).1.state.currentSession = SessionType.work ∧
    (expire t).1.state.currentSet = t.state.currentSet + 1 ∧
    countSessionEnd (expire t).2 = 1 ∧
    countComplete (expire t).2 = 0 := by
  have hg := getNextSession_break_lt t hb hlt
  rw [expire_eq_handleSessionEnd]
  have hg2 : getNextSession (stopInterval t) = some SessionType.work := by
    rw [getNextSession_stopInterval, hg]
  have hor : t.state.currentSession = SessionType.break_ ∨
      t.state.currentSession = SessionType.longBreak := by
    cases hsess : t.state.currentSession
    · exact absurd hsess hb
    · exact Or.inl rfl
    · exact Or.inr rfl
  simp only [handleSessionEnd, hg2]
  simp only [stopInterval, startTimer]
  rw [if_pos (⟨hor, trivial⟩ : (t.state.currentSession = SessionType.break_ ∨
      t.state.currentSession = SessionType.longBreak) ∧ True)]
  simp [countSessionEnd, countComplete, List.countP_cons, List.countP_nil,
    isSessionEnd, isCompleteEvent]

lemma run_from_work (cfg : PomodoroSettings) :
    ∀ d : Nat, ∀ t : PomodoroTimer, t.settings = cfg →
      t.state.status = TimerStatus.running →
      t.state.currentSession = SessionType.work →
      t.state.currentSet + d = cfg.totalSets →
      (runExpire (2 * d + 1) t).1.state.status = TimerStatus.completed ∧
      countSessionEnd (runExpire (2 * d + 1) t).2 = 2 * d + 1 ∧
      countComplete (runExpire (2 * d + 1) t).2 = 1 := by
  intro d
  induction d with
  | zero =>
      intro t hcfg hs hw hd
      have hge : t.settings.totalSets ≤ t.state.currentSet := by rw [hcfg]; omega
      have hg := getNextSession_ge t hge
      have hnc : t.state.status ≠ TimerStatus.completed := by rw [hs]; intro hx; cases hx
      obtain ⟨ht, hse, hcc⟩ := expire_terminal t hg
      have hone : 2 * 0 + 1 = 0 + 1 := by norm_num
      rw [hone, runExpire_succ 0 t hnc, runExpire_zero]
      refine ⟨ht, ?_, ?_⟩ <;> simp [hse, hcc]
  | succ d ih =>
      intro t hcfg hs hw hd
      have hlt : t.state.currentSet < t.settings.totalSets := by rw [hcfg]; omega
      have hnc : t.state.status ≠ TimerStatus.completed := by rw [hs]; intro hx; cases hx
      have hbreak : ∀ next : SessionType, getNextSession t = some next →
          next ≠ SessionType.work →
          (runExpire (2 * (d + 1) + 1) t).1.state.status = TimerStatus.completed ∧
          countSessionEnd (runExpire (2 * (d + 1) + 1) t).2 = 2 * (d + 1) + 1 ∧
          countComplete (runExpire (2 * (d + 1) + 1) t).2 = 1 := by
        intro next hg hnw
        obtain ⟨hcfg1, hs1, hsess1, hset1, hse1, hcc1⟩ := expire_work_step t next hw hg
        have hnc1 : (expire t).1.state.status ≠ TimerStatus.completed := by
          rw [hs1]; intro hx; cases hx
        have hb1 : (expire t).1.state.currentSession ≠ SessionType.work := by
          rw [hsess1]; exact hnw
        have hlt1 : (expire t).1.state.currentSet < (expire t).1.settings.totalSets := by
          rw [hset1, hcfg1]; exact hlt
        obtain ⟨hcfg2, hs2, hsess2, hset2, hse2, hcc2⟩ := expire_break_step (expire t).1 hb1 hlt1
        have ih2 := ih (expire (expire t).1).1 (by rw [hcfg2, hcfg1, hcfg])
          hs2 hsess2 (by rw [hset2, hset1]; omega)
        obtain ⟨iht, ihse, ihcc⟩ := ih2
        have hfuel : 2 * (d + 1) + 1 = (2 * d + 1) + 1 + 1 := by omega
        rw [hfuel, runExpire_succ ((2 * d + 1) + 1) t hnc,
          runExpire_succ (2 * d + 1) (expire t).1 hnc1]
        refine ⟨iht, ?_, ?_⟩ <;>
          simp [countSessionEnd_append, countComplete_append, hse1, hcc1, hse2, hcc2,
            ihse, ihcc] <;> omega
      obtain hg | hg := getNextSession_work_lt t hw hlt
      · exact hbreak SessionType.longBreak hg (by intro hx; cases hx)
      · exact hbreak SessionType.break_ hg (by intro hx; cases hx)

/-- Claim C4: for any configuration with `totalSets = N ≥ 1` (and any
`longBreakInterval`), a full run — construct, `start`, then let every
session expire naturally until the engine completes — invokes
`onSessionEnd` exactly `2N - 1` times and `onComplete` exactly once. -/
theorem run_callback_cardinality (cfg : PomodoroSettings) (now : Int)
    (hN : 1 ≤ cfg.totalSets) :
    (runExpire (2 * cfg.totalSets) (start (PomodoroTimer.new cfg) now).1).1.state.status
      = TimerStatus.completed ∧
    countSessionEnd (runExpire (2 * cfg.totalSets) (start (PomodoroTimer.new cfg) now).1).2
      = 2 * cfg.totalSets - 1 ∧
    countComplete (runExpire (2 * cfg.totalSets) (start (PomodoroTimer.new cfg) now).1).2
      = 1 := by
  have hcfg : (start (PomodoroTimer.new cfg) now).1.settings = cfg := rfl
  have hs : (start (PomodoroTimer.new cfg) now).1.state.status = TimerStatus.running := rfl
  have hw : (start (PomodoroTimer.new cfg) now).1.state.currentSession = SessionType.work := rfl
  have hset : (start (PomodoroTimer.new cfg) now).1.state.currentSet = 1 := rfl
  obtain ⟨hst, hse, hcc⟩ :=
    run_from_work cfg (cfg.totalSets - 1) (start (PomodoroTimer.new cfg) now).1
      hcfg hs hw (by rw [hset]; omega)
  have hfuel : 2 * cfg.totalSets = (2 * (cfg.totalSets - 1) + 1) + 1 := by omega
  rw [hfuel, runExpire_add (2 * (cfg.totalSets - 1) + 1) 1]
  rw [runExpire_completed 1 _ hst]
  refine ⟨hst, ?_, ?_⟩
  · simp [hse]
  · simp [hcc]

/-- Witness for C4: the default configuration (4 sets), started at time 0:
7 session-end callbacks and one completion callback. -/
theorem run_callback_cardinality_witness :
    1 ≤ DEFAULT_SETTINGS.totalSets ∧
    (runExpire (2 * DEFAULT_SETTINGS.totalSets)
        (start (PomodoroTimer.new DEFAULT_SETTINGS) 0).1).1.state.status
      = TimerStatus.completed ∧
    countSessionEnd (runExpire (2 * DEFAULT_SETTINGS.totalSets)
        (start (PomodoroTimer.new DEFAULT_SETTINGS) 0).1).2
      = 2 * DEFAULT_SETTINGS.totalSets - 1 ∧
    countComplete (runExpire (2 * DEFAULT_SETTINGS.totalSets)
        (start (PomodoroTimer.new DEFAULT_SETTINGS) 0).1).2 = 1 :=
  ⟨by decide, run_callback_cardinality DEFAULT_SETTINGS 0 (by decide)⟩
